import Mathlib

/-!
Shallow embedding of the migration command layer of `nonebot_plugin_orm`
(`src/nonebot_plugin_orm/migrate.py` and its CLI entry points in
`src/nonebot_plugin_orm/__main__.py`), covering `check`, `revision`,
`upgrade`, `downgrade`, `sync`, `stamp` and `AlembicConfig.move_script`.

Revision identifiers are strings, schemas are lists of tables, file-system
paths are lists of components.  The external migration library's
autogenerate engine (`produce_migrations`) is modelled as a minimal
structural diff between schemas, and its `_stamp_revs` as the stamp steps
moving the version table between revision sets.
-/

namespace NonebotOrm

/-- Revision identifiers (the `rev_id` strings of the revision graph). -/
abbrev Rev := String

/-- Errors raised by the command layer: `click.UsageError`,
`click.BadParameter` (message and `param_hint`), the drift exception
`AutogenerateDiffsDetected` carrying the diff payload, and the Python
`ValueError` raised by tuple-unpacking a `split` of the wrong length. -/
inductive MigrateError where
  | usageError (msg : String)
  | badParameter (msg hint : String)
  | autogenerateDiffsDetected (diffs : List String)
  | valueError
  deriving Repr, DecidableEq

/-- A table of a schema: its name and the list of its column names. -/
structure Table where
  name : String
  cols : List String
  deriving Repr, DecidableEq

/-- A database schema (the reflected live schema or a declared metadata
snapshot): the list of its tables. -/
abbrev Schema := List Table

/-- One structural schema-change operation, as produced by the diff engine
(`UpgradeOps.as_diffs()`) and executed by `_run_ops`. -/
inductive SchemaOp where
  | createTable (t : Table)
  | dropTable (name : String)
  | addColumn (table col : String)
  | dropColumn (table col : String)
  deriving Repr, DecidableEq

/-- Effect of one schema operation on a schema. -/
def applySchemaOp (s : Schema) : SchemaOp → Schema
  | .createTable t => s ++ [t]
  | .dropTable n => s.filter (fun t => t.name ≠ n)
  | .addColumn n c =>
      s.map (fun t => if t.name = n then { t with cols := t.cols ++ [c] } else t)
  | .dropColumn n c =>
      s.map (fun t => if t.name = n then { t with cols := t.cols.filter (· ≠ c) } else t)

/-- Effect of a list of schema operations, applied in order. -/
def applyOps (s : Schema) (ops : List SchemaOp) : Schema :=
  ops.foldl applySchemaOp s

/-- Model of the autogenerate engine (`produce_migrations(context, metadata)
.upgrade_ops.as_diffs()` of the external migration library): the minimal
structural diff from the `live` reflected schema to the `declared`
metadata — create missing tables, drop extra tables, and add/drop columns
of tables present on both sides (pairing tables by name). -/
def diffOps (live declared : Schema) : List SchemaOp :=
  ((declared.filter (fun t => t.name ∉ live.map Table.name)).map .createTable)
    ++ ((live.filter (fun t => t.name ∉ declared.map Table.name)).map
        (fun t => .dropTable t.name))
    ++ (((declared.filter (fun t => t.name ∈ live.map Table.name)).map
        (fun t =>
          match live.find? (fun l => l.name = t.name) with
          | none => []
          | some l =>
            ((t.cols.filter (fun c => c ∉ l.cols)).map (SchemaOp.addColumn t.name))
              ++ ((l.cols.filter (fun c => c ∉ t.cols)).map
                  (SchemaOp.dropColumn t.name)))).flatten)

/-- A step yielded by a `retrieve_migrations`-style callback to the
migration environment: either a version-table stamp (`StampStep`) or the
execution of a revision script body (`RevisionStep`). -/
inductive Step where
  | stamp (fromRevs toRevs : List Rev)
  | run (rev : Rev) (ops : List SchemaOp)
  deriving Repr, DecidableEq

/-- Whether a step is a pure version-table stamp. -/
def Step.isStamp : Step → Bool
  | .stamp _ _ => true
  | .run _ _ => false

/-- Live database state: its schema and the rows of the version table. -/
structure DbState where
  schema : Schema
  versionRows : List Rev
  deriving Repr, DecidableEq

/-- Effect of one migration-environment step on the database: a stamp step
rewrites only the version table; a revision step runs the script body's
operations and records the revision. -/
def execStep (st : DbState) : Step → DbState
  | .stamp _ toRevs => { st with versionRows := toRevs }
  | .run rev ops => { schema := applyOps st.schema ops, versionRows := rev :: st.versionRows }

/-- Effect of a migration plan, executed in order. -/
def execPlan (st : DbState) (plan : List Step) : DbState :=
  plan.foldl execStep st

/-- Result of running `check`: the outcome (raised error or success),
whether `run_autogenerate` was reached, the informational message printed
on success, and the steps handed back to the migration environment
(`retrieve_migrations` always returns `()`, so no step is ever executed). -/
structure CheckResult where
  outcome : Except MigrateError Unit
  autogenRan : Bool
  printed : Option String
  executedSteps : List Step
  deriving Repr

/-- `check` (migrate.py 519-571): `retrieve_migrations` raises
`click.UsageError` when the revision set reported by the live database
(`rev`) differs as a set from `script.get_revisions("heads")`, before
`run_autogenerate`; afterwards the collected `upgrade_ops.as_diffs()` are
raised as `AutogenerateDiffsDetected` when non-empty, else an
informational message is printed.  `autogenDiffs` is the diff list
autogeneration produces against the declared metadata. -/
def check (currentRevs headsRevs : List Rev) (autogenDiffs : List SchemaOp) :
    CheckResult :=
  if currentRevs.toFinset ≠ headsRevs.toFinset then
    { outcome := .error (.usageError
        "目标数据库未更新到最新迁移. 请通过 `nb orm upgrade` 升级数据库后重试."),
      autogenRan := false, printed := none, executedSteps := [] }
  else if autogenDiffs ≠ [] then
    { outcome := .error (.autogenerateDiffsDetected (autogenDiffs.map (fun op => reprStr op))),
      autogenRan := true, printed := none, executedSteps := [] }
  else
    { outcome := .ok (), autogenRan := true,
      printed := some "没有检测到新的升级操作", executedSteps := [] }

/-- The `retrieve_migrations` callback of `revision` (migrate.py 486-504):
in SQL mode it runs `run_no_autogenerate`; otherwise the same up-to-date
guard as `check` protects `run_autogenerate`.  Returns whether
autogeneration ran. -/
def revisionRetrieve (sql : Bool) (currentRevs headsRevs : List Rev) :
    Except MigrateError Bool :=
  if sql then .ok false
  else if currentRevs.toFinset ≠ headsRevs.toFinset then
    .error (.usageError
      "目标数据库未更新到最新迁移. 请通过 `nb orm upgrade` 升级数据库后重试.")
  else .ok true

/-- Splitting a character list at every occurrence of `sep` (the helper
of `pySplit`). -/
def splitChar (sep : Char) : List Char → List (List Char)
  | [] => [[]]
  | c :: rest =>
    if c = sep then [] :: splitChar sep rest
    else
      match splitChar sep rest with
      | [] => [[c]]
      | h :: t => (c :: h) :: t

/-- Python `str.split` with a one-character separator (full split;
`"a:b".split(":") = ["a", "b"]`, `":".split(":") = ["", ""]`). -/
def pySplit (s : String) (sep : Char) : List String :=
  (splitChar sep s.toList).map String.mk

/-- Python `sep in s` for a one-character `sep`. -/
def containsChar (s : String) (sep : Char) : Bool :=
  s.toList.contains sep

/-- Prepared execution arguments of `upgrade`/`downgrade`: the optional
starting revision (SQL mode only) and the destination revision. -/
structure RunPrep where
  startingRev : Option String
  destRev : String
  deriving Repr, DecidableEq

/-- `upgrade` argument handling (migrate.py 632-643): default target is
`head` for a single-head graph and `heads` otherwise; a `:`-range is a
`click.BadParameter` outside `--sql` mode, and in SQL mode it is split
into starting and destination revision (tuple unpacking fails unless the
split yields exactly two parts). -/
def upgradePrep (revision : Option String) (sql : Bool) (numHeads : Nat) :
    Except MigrateError RunPrep :=
  let rev := match revision with
    | none => if numHeads = 1 then "head" else "heads"
    | some r => r
  if containsChar rev ':' then
    if !sql then
      .error (.badParameter "不允许在非 --sql 模式下使用迁移范围" "REVISION")
    else
      match pySplit rev ':' with
      | [s, r] => .ok ⟨some s, r⟩
      | _ => .error .valueError
  else
    .ok ⟨none, rev⟩

/-- `downgrade` argument handling (migrate.py 681-692): a `:`-range is a
`click.BadParameter` outside `--sql` mode; conversely, in `--sql` mode a
plain single revision is a `click.BadParameter` demanding an explicit
`<fromrev>:<torev>` range. -/
def downgradePrep (revision : String) (sql : Bool) : Except MigrateError RunPrep :=
  if containsChar revision ':' then
    if !sql then
      .error (.badParameter "不允许在非 --sql 模式下使用迁移范围" "REVISION")
    else
      match pySplit revision ':' with
      | [s, r] => .ok ⟨some s, r⟩
      | _ => .error .valueError
  else if sql then
    .error (.badParameter "--sql 模式下降级必须指定迁移范围 <fromrev>:<torev>" "REVISION")
  else
    .ok ⟨none, revision⟩

/-- `stamp` argument handling (migrate.py 978-998): the default target is
`heads`; in SQL mode each `:`-range contributes its part after the colon
to the destinations, and all ranges must share one starting revision. -/
def stampPrep (revisions : List String) (sql : Bool) :
    Except MigrateError (Option String × List String) :=
  let revisions := if revisions = [] then ["heads"] else revisions
  if sql then
    revisions.foldlM
      (fun (acc : Option String × List String) rev =>
        if containsChar rev ':' then
          match pySplit rev ':' with
          | [srev, r] =>
            match acc.1 with
            | none => .ok (some srev, acc.2 ++ [r])
            | some s =>
              if s = srev then .ok (acc.1, acc.2 ++ [r])
              else .error (.badParameter
                "--sql 模式下标记操作仅支持一个起始迁移" "REVISIONS")
          | _ => .error .valueError
        else .ok (acc.1, acc.2 ++ [rev]))
      (none, [])
  else
    .ok (none, revisions)

/-- Model of `ScriptDirectory._stamp_revs` of the external migration
library: the stamp steps that move the version table from the currently
recorded revisions to the destination revisions. -/
def stampRevs (destRevs currentRevs : List Rev) : List (List Rev × List Rev) :=
  [(currentRevs, destRevs)]

/-- `do_stamp` (migrate.py 1000-1002): the migration plan handed to the
environment consists of exactly the steps of
`script._stamp_revs(destination_revs, rev)`. -/
def doStampPlan (destRevs currentRevs : List Rev) : List Step :=
  (stampRevs destRevs currentRevs).map (fun p => Step.stamp p.1 p.2)

/-- Result of a `sync` run: the schema operations executed via `_run_ops`
(and the fallback), the resulting schema, whether `_stamp_revs("base", ·)`
steps were yielded, and the target of the subsequent `_upgrade_revs`
replay when a target revision was given. -/
structure SyncResult where
  executedOps : List SchemaOp
  finalSchema : Schema
  stampedBase : Bool
  upgradeTarget : Option Rev
  deriving Repr, DecidableEq

/-- `sync`'s `retrieve_migrations` body (migrate.py 740-768): the diff is
computed against an empty metadata when a target revision is given and
against the declared metadata otherwise; with no target and an empty diff
it returns immediately; `_run_ops` applies the diff (`opsFail` models it
raising, in which case the transaction leaves the schema unchanged and,
with no target, the fallback drops every reflected table and re-creates
the declared metadata via `create_all`); finally the version table is
stamped at `base` and, when a target revision was given, the upgrade path
from `base` to it is replayed. -/
def sync (revision : Option Rev) (live declared : Schema) (opsFail : Bool) :
    Except Unit SyncResult :=
  let metadata : Schema := match revision with
    | some _ => []
    | none => declared
  let ops := diffOps live metadata
  if revision = none ∧ ops = [] then
    .ok ⟨[], live, false, none⟩
  else if opsFail then
    match revision with
    | some _ => .error ()
    | none =>
      let fallbackOps := diffOps live [] ++ declared.map .createTable
      .ok ⟨fallbackOps, applyOps live fallbackOps, true, none⟩
  else
    .ok ⟨ops, applyOps live ops, true, revision⟩

/-- A file-system path, as its list of components. -/
abbrev FsPath := List String

/-- `Path.relative_to`: the path relative to `base`, or `none` (Python
raises `ValueError`) when `base` is not a prefix of the path. -/
def relativeTo (base p : FsPath) : Option FsPath :=
  if base.isPrefixOf p then some (p.drop base.length) else none

/-- The name of a path's parent directory (`script_path.parent.name`);
`""` for a path with no directory component. -/
def parentName (rel : FsPath) : String :=
  (rel.dropLast.getLast?).getD ""

/-- The final component of a path (`Path(...).name`). -/
def fileName (p : FsPath) : String :=
  p.getLast?.getD ""

/-- `dict.get` of the plugin version-location map
(`AlembicConfig._plugin_version_locations`). -/
def lookupLoc (pvl : List (String × FsPath)) (name : String) : Option FsPath :=
  (pvl.find? (fun p => p.1 = name)).map Prod.snd

/-- A file-system side effect of `move_script`: `mkdir(parents=True,
exist_ok=True)` of the version location, or `shutil.move` of the script
into it. -/
inductive FsOp where
  | mkdirp (dir : FsPath)
  | move (src dstDir : FsPath)
  deriving Repr, DecidableEq

/-- Result of `AlembicConfig.move_script`: the returned path, the
file-system operations performed, and whether the orphan warning was
printed. -/
structure MoveResult where
  path : FsPath
  fsOps : List FsOp
  warned : Bool
  deriving Repr, DecidableEq

/-- `AlembicConfig.move_script` (migrate.py 170-192): a script outside the
temporary merged workspace is returned unchanged with no file-system
operation; inside it, the owning plugin is the parent directory's name,
looked up in the plugin version-location map with the `""` entry as
fallback; with no location found the relative path is returned and a
warning printed, otherwise the location is created and the script moved
into it. -/
def move_script (tempDir : FsPath) (pvl : List (String × FsPath))
    (scriptPath : FsPath) : MoveResult :=
  match relativeTo tempDir scriptPath with
  | none => ⟨scriptPath, [], false⟩
  | some rel =>
    let vloc := match lookupLoc pvl (parentName rel) with
      | some v => some v
      | none => lookupLoc pvl ""
    match vloc with
    | none => ⟨rel, [], true⟩
    | some v => ⟨v ++ [fileName scriptPath], [.mkdirp v, .move scriptPath v], false⟩

/-- A revision script node, as seen by `revision`'s head resolution: its
revision id and its branch labels. -/
structure Script where
  revision : Rev
  branch_labels : List String
  deriving Repr, DecidableEq

/-- Head resolution of `revision` (migrate.py 453-467) when no explicit
`--head` is given, over `script.get_revisions(script.get_heads())`: with
a branch label carried by some head, `label@head` is used and the label
consumed; with a fresh branch label, `base`; with no label and at most
one head, `head`; otherwise the first head without branch labels, or
`base` when every head is labelled.  Returns the resolved head spec and
the remaining branch label. -/
def resolveHead (branch_label : Option String) (headScripts : List Script) :
    String × Option String :=
  match branch_label with
  | some bl =>
    if headScripts.any (fun sc => bl ∈ sc.branch_labels) then (bl ++ "@head", none)
    else ("base", some bl)
  | none =>
    if headScripts.length ≤ 1 then ("head", none)
    else
      match headScripts.find? (fun sc => sc.branch_labels.isEmpty) with
      | some sc => (sc.revision, none)
      | none => ("base", none)

/-- One migration of a linear history: its revision id and the operations
of its upgrade body. -/
structure Migration where
  rev : Rev
  ops : List SchemaOp
  deriving Repr, DecidableEq

/-- Replaying a migration history over a schema, in order. -/
def replaySchema (s : Schema) (history : List Migration) : Schema :=
  history.foldl (fun acc m => applyOps acc m.ops) s

/-- The head revision set of a linear history. -/
def headsOf (history : List Migration) : List Rev :=
  match history.getLast? with
  | some m => [m.rev]
  | none => []

/-- Modelled from the spec: the `--fast` option of `upgrade`, which is
absent from `src/nonebot_plugin_orm` (neither `migrate.upgrade` nor the
CLI command in `__main__.py` accepts it) — "when the target is
`head`/`heads`, the live database has no recorded current revision
(fresh/empty), and the operator opts in, the runner skips replaying every
historical step and instead directly creates all tables from the current
declared snapshot, then stamps the version table at the target"; it "must
NOT be used if any revision row already exists".  Otherwise the runner
replays the not-yet-applied historical steps in order and records the
head. -/
def upgradeCmd (fast : Bool) (declared : Schema) (history : List Migration)
    (st : DbState) : DbState :=
  if fast ∧ st.versionRows = [] then
    { schema := applyOps st.schema
        ((declared.filter (fun t => t.name ∉ st.schema.map Table.name)).map
          .createTable),
      versionRows := headsOf history }
  else
    { schema := replaySchema st.schema
        (history.filter (fun m => m.rev ∉ st.versionRows)),
      versionRows := headsOf history }

/-- Concrete live schema used for the `sync` examples: one table with two
columns. -/
def liveEx : Schema := [⟨"t", ["a", "b"]⟩]

/-- Concrete declared snapshot used for the `sync` examples: the same
table with its second column removed. -/
def declEx : Schema := [⟨"t", ["a"]⟩]

/-- Two unlabelled heads, for the head-resolution examples. -/
def headsEx : List Script := [⟨"r1", []⟩, ⟨"r2", []⟩]

/-- A plugin version-location map holding only the default `""` entry. -/
def pvlEx : List (String × FsPath) := [("", ["srv", "migrations", "versions"])]

/-- A generated script inside the merged workspace, under a plugin
directory absent from `pvlEx`. -/
def scriptEx : FsPath := ["tmp", "work", "plugin_a", "xyz.py"]

/-- A one-revision history creating the single declared table, for the
fast-path example. -/
def historyEx : List Migration := [⟨"r1", [.createTable ⟨"users", ["id"]⟩]⟩]

theorem applyOps_append (s : Schema) (l1 l2 : List SchemaOp) :
    applyOps s (l1 ++ l2) = applyOps (applyOps s l1) l2 := by
  simp [applyOps, List.foldl_append]

theorem applyOps_create (s : Schema) (ts : List Table) :
    applyOps s (ts.map .createTable) = s ++ ts := by
  induction ts generalizing s with
  | nil => simp [applyOps]
  | cons t rest ih =>
    simp only [List.map_cons, applyOps, List.foldl_cons]
    have h : applySchemaOp s (.createTable t) = s ++ [t] := rfl
    rw [h]
    have := ih (s ++ [t])
    simpa [applyOps] using this

theorem applyOps_dropAll (names : List String) (s : Schema)
    (h : ∀ t ∈ s, t.name ∈ names) :
    applyOps s (names.map SchemaOp.dropTable) = [] := by
  induction names generalizing s with
  | nil =>
    have hs : s = [] := List.eq_nil_iff_forall_not_mem.mpr
      (fun t ht => by simpa using h t ht)
    simp [hs, applyOps]
  | cons n rest ih =>
    simp only [List.map_cons, applyOps, List.foldl_cons]
    have hstep : applySchemaOp s (.dropTable n) = s.filter (fun t => t.name ≠ n) := rfl
    rw [hstep]
    apply ih
    intro t ht
    have htn : t.name ≠ n := by
      have := List.of_mem_filter ht
      simpa using this
    have hts : t ∈ s := List.mem_of_mem_filter ht
    rcases List.mem_cons.mp (h t hts) with h1 | h1
    · exact absurd h1 htn
    · exact h1

theorem diffOps_nil_declared (live : Schema) :
    diffOps live [] = live.map (fun t => SchemaOp.dropTable t.name) := by
  simp [diffOps]

theorem find?_self_of_nodup (s : Schema) (hnd : (s.map Table.name).Nodup)
    (t : Table) (ht : t ∈ s) :
    s.find? (fun l => l.name = t.name) = some t := by
  induction s with
  | nil => cases ht
  | cons a rest ih =>
    simp only [List.map_cons, List.nodup_cons] at hnd
    rcases List.mem_cons.mp ht with h | h
    · subst h
      simp
    · have han : a.name ≠ t.name := by
        intro he
        exact hnd.1 (he ▸ List.mem_map_of_mem Table.name h)
      rw [List.find?_cons_of_neg _ (by simpa using han)]
      exact ih hnd.2 h

theorem diffOps_self (s : Schema) (hnd : (s.map Table.name).Nodup) :
    diffOps s s = [] := by
  unfold diffOps
  have h1 : s.filter (fun t => t.name ∉ s.map Table.name) = [] :=
    List.filter_eq_nil_iff.mpr fun t ht => by
      simp [List.mem_map_of_mem Table.name ht]
  have h2 : s.filter (fun t => t.name ∈ s.map Table.name) = s :=
    List.filter_eq_self.mpr fun t ht => by
      simp [List.mem_map_of_mem Table.name ht]
  rw [h1, h2]
  simp only [List.map_nil, List.nil_append]
  apply List.eq_nil_iff_forall_not_mem.mpr
  intro x hx
  rw [List.mem_flatten] at hx
  obtain ⟨l, hl, hxl⟩ := hx
  rw [List.mem_map] at hl
  obtain ⟨t, ht, rfl⟩ := hl
  rw [find?_self_of_nodup s hnd t ht] at hxl
  have hcols : t.cols.filter (fun c => c ∉ t.cols) = [] :=
    List.filter_eq_nil_iff.mpr fun c hc => by simp [hc]
  simp only [hcols, List.map_nil, List.append_nil] at hxl
  cases hxl

/-- C1: for every invocation of `check` (and of `revision` in non-SQL
mode) where the set of revisions recorded as current in the live database
does not equal the set of head revisions of the revision graph, the
operation raises the out-of-date usage error before running any schema
diff; autogeneration is not attempted against the stale baseline. -/
theorem check_out_of_date (currentRevs headsRevs : List Rev)
    (diffs : List SchemaOp)
    (h : currentRevs.toFinset ≠ headsRevs.toFinset) :
    (check currentRevs headsRevs diffs).outcome
        = .error (.usageError
          "目标数据库未更新到最新迁移. 请通过 `nb orm upgrade` 升级数据库后重试.") ∧
    (check currentRevs headsRevs diffs).autogenRan = false ∧
    revisionRetrieve false currentRevs headsRevs
        = .error (.usageError
          "目标数据库未更新到最新迁移. 请通过 `nb orm upgrade` 升级数据库后重试.") := by
  refine ⟨?_, ?_, ?_⟩ <;> simp [check, revisionRetrieve, h]

/-- Witness for `check_out_of_date`: a database still at `r5` while the
heads are `{r7}`. -/
theorem check_out_of_date_witness :
    (["r5"] : List Rev).toFinset ≠ (["r7"] : List Rev).toFinset ∧
    (check ["r5"] ["r7"] []).autogenRan = false :=
  ⟨by decide, (check_out_of_date ["r5"] ["r7"] [] (by decide)).2.1⟩

/-- C2: for every run of `check` against a database at the head revision
set, a non-empty computed diff raises the drift-detected error carrying
the diff payload; an empty diff succeeds, prints the informational
message, and hands no step to the migration environment (no side effect
on the database). -/
theorem check_drift_or_ok (currentRevs headsRevs : List Rev)
    (diffs : List SchemaOp)
    (h : currentRevs.toFinset = headsRevs.toFinset) :
    (diffs ≠ [] → (check currentRevs headsRevs diffs).outcome
        = .error (.autogenerateDiffsDetected (diffs.map (fun op => reprStr op)))) ∧
    (diffs = [] → (check currentRevs headsRevs diffs).outcome = .ok ()
      ∧ (check currentRevs headsRevs diffs).printed = some "没有检测到新的升级操作") ∧
    (check currentRevs headsRevs diffs).executedSteps = [] := by
  refine ⟨fun hd => ?_, fun hd => ⟨?_, ?_⟩, ?_⟩
  · simp [check, h, hd]
  · simp [check, h, hd]
  · simp [check, h, hd]
  · by_cases hd : diffs = [] <;> simp [check, h, hd]

/-- Witness for `check_drift_or_ok`: at heads `{r1}` with a one-element
diff, the drift error carries the diff payload. -/
theorem check_drift_or_ok_witness :
    (["r1"] : List Rev).toFinset = (["r1"] : List Rev).toFinset ∧
    (check ["r1"] ["r1"] [.dropColumn "t" "b"]).outcome
      = .error (.autogenerateDiffsDetected
          (([SchemaOp.dropColumn "t" "b"]).map (fun op => reprStr op))) :=
  ⟨rfl, (check_drift_or_ok ["r1"] ["r1"] [.dropColumn "t" "b"] rfl).1 (by decide)⟩

/-- C6: a `:`-range revision argument to `upgrade` or `downgrade` in live
(non-SQL) execution mode fails with the bad-parameter error; no prepared
execution arguments (and hence no migration step) are produced. -/
theorem live_range_rejected (rev : String) (numHeads : Nat)
    (h : containsChar rev ':' = true) :
    upgradePrep (some rev) false numHeads
        = .error (.badParameter "不允许在非 --sql 模式下使用迁移范围" "REVISION") ∧
    downgradePrep rev false
        = .error (.badParameter "不允许在非 --sql 模式下使用迁移范围" "REVISION") := by
  constructor <;> simp [upgradePrep, downgradePrep, h]

/-- Witness for `live_range_rejected`: `downgrade base:head` (and the same
range passed to `upgrade`) in live mode. -/
theorem live_range_rejected_witness :
    containsChar "base:head" ':' = true ∧
    downgradePrep "base:head" false
        = .error (.badParameter "不允许在非 --sql 模式下使用迁移范围" "REVISION") :=
  ⟨by decide, (live_range_rejected "base:head" 1 (by decide)).2⟩

/-- C10: `downgrade` in SQL-emission mode with a single revision (no `:`
range separator) fails with the bad-parameter error demanding an explicit
`<fromrev>:<torev>` range. -/
theorem downgrade_sql_requires_range (rev : String)
    (h : containsChar rev ':' = false) :
    downgradePrep rev true
        = .error (.badParameter
          "--sql 模式下降级必须指定迁移范围 <fromrev>:<torev>" "REVISION") := by
  simp [downgradePrep, h]

/-- Witness for `downgrade_sql_requires_range`: `downgrade head --sql`. -/
theorem downgrade_sql_requires_range_witness :
    containsChar "head" ':' = false ∧
    downgradePrep "head" true
        = .error (.badParameter
          "--sql 模式下降级必须指定迁移范围 <fromrev>:<torev>" "REVISION") :=
  ⟨by decide, downgrade_sql_requires_range "head" (by decide)⟩

/-- C7: the migration plan of `stamp`'s `do_stamp` consists only of
version-table stamp steps; executing it leaves the schema of the live
database untouched and only rewrites the version rows to the destination
revisions. -/
theorem stamp_only_version_rows (destRevs currentRevs : List Rev) (st : DbState) :
    (doStampPlan destRevs currentRevs).all Step.isStamp = true ∧
    (execPlan st (doStampPlan destRevs currentRevs)).schema = st.schema ∧
    (execPlan st (doStampPlan destRevs currentRevs)).versionRows = destRevs :=
  ⟨rfl, rfl, rfl⟩

/-- C8: `move_script` on a script whose path already lies outside the
temporary merged workspace is a no-op: the same path is returned, no
file-system operation is performed and no warning is printed. -/
theorem move_script_outside_noop (tempDir : FsPath)
    (pvl : List (String × FsPath)) (scriptPath : FsPath)
    (h : tempDir.isPrefixOf scriptPath = false) :
    move_script tempDir pvl scriptPath = ⟨scriptPath, [], false⟩ := by
  simp [move_script, relativeTo, h]

/-- Witness for `move_script_outside_noop`: an already-relocated script
under the persistent versions directory. -/
theorem move_script_outside_noop_witness :
    (["tmp", "work"] : FsPath).isPrefixOf
        ["srv", "migrations", "versions", "xyz.py"] = false ∧
    move_script ["tmp", "work"] pvlEx ["srv", "migrations", "versions", "xyz.py"]
        = ⟨["srv", "migrations", "versions", "xyz.py"], [], false⟩ :=
  ⟨by decide, move_script_outside_noop ["tmp", "work"] pvlEx
    ["srv", "migrations", "versions", "xyz.py"] (by decide)⟩

/-- C5 counterexample: with two existing heads and no branch label,
`revision`'s head resolution does not fail with an ambiguous-head error;
it silently chooses the first head without branch labels (`r1`, one of
the heads) as the new revision's parent. -/
theorem revision_multi_head_silent_choice :
    1 < headsEx.length ∧
    resolveHead none headsEx = ("r1", none) ∧
    "r1" ∈ headsEx.map Script.revision := by
  refine ⟨by decide, by decide, by decide⟩

/-- C5 (amended): when `revision` is invoked without an explicit head and
without a branch label — if the graph has at most one head, the symbolic
`head` spec is used (resolving to that head, or to base for an empty
graph); if the graph has more than one head, no error is raised: the
first head carrying no branch label is silently chosen as the new
revision's parent, and `base` is used when every head is labelled. -/
theorem resolve_head_policy (headScripts : List Script) :
    (headScripts.length ≤ 1 → resolveHead none headScripts = ("head", none)) ∧
    (∀ sc, 1 < headScripts.length →
        headScripts.find? (fun s => s.branch_labels.isEmpty) = some sc →
        resolveHead none headScripts = (sc.revision, none)
          ∧ sc ∈ headScripts ∧ sc.branch_labels = []) ∧
    (1 < headScripts.length →
        headScripts.find? (fun s => s.branch_labels.isEmpty) = none →
        resolveHead none headScripts = ("base", none)) := by
  refine ⟨fun h => ?_, fun sc h hf => ?_, fun h hf => ?_⟩
  · simp [resolveHead, h]
  · have h1 : ¬ headScripts.length ≤ 1 := by omega
    refine ⟨by simp [resolveHead, h1, hf], List.mem_of_find?_eq_some hf, ?_⟩
    have := List.find?_some hf
    simpa using this
  · have h1 : ¬ headScripts.length ≤ 1 := by omega
    simp [resolveHead, h1, hf]

/-- Witness for `resolve_head_policy`: over the two unlabelled heads of
`headsEx`, the first head `r1` is chosen. -/
theorem resolve_head_policy_witness :
    1 < headsEx.length ∧
    (resolveHead none headsEx = ("r1", none)
      ∧ (⟨"r1", []⟩ : Script) ∈ headsEx
      ∧ (Script.mk "r1" []).branch_labels = []) :=
  ⟨by decide, (resolve_head_policy headsEx).2.1 ⟨"r1", []⟩ (by decide) (by decide)⟩

/-- C9 counterexample: `scriptEx` lies inside the merged workspace and its
owning plugin `plugin_a` is absent from the version-location map `pvlEx`,
yet `move_script` does not leave it in place: it falls back to the
default `""` entry and moves the script there, printing no warning. -/
theorem move_script_orphan_moved_to_default :
    lookupLoc pvlEx "plugin_a" = none ∧
    move_script ["tmp", "work"] pvlEx scriptEx
      = ⟨["srv", "migrations", "versions", "xyz.py"],
         [.mkdirp ["srv", "migrations", "versions"],
          .move scriptEx ["srv", "migrations", "versions"]], false⟩ :=
  ⟨by decide, by rfl⟩

/-- C9 (amended): for a generated script inside the merged workspace whose
owning plugin (derived from its directory component) is not present in
the plugin version-location map, `move_script` falls back to the default
`""` entry and moves the script there; only when the default entry is
also absent does it leave the file in place and print the orphan
warning. -/
theorem move_script_orphan_policy (tempDir : FsPath)
    (pvl : List (String × FsPath)) (scriptPath rel : FsPath)
    (hrel : relativeTo tempDir scriptPath = some rel)
    (hplugin : lookupLoc pvl (parentName rel) = none) :
    (lookupLoc pvl "" = none →
      move_script tempDir pvl scriptPath = ⟨rel, [], true⟩) ∧
    (∀ v, lookupLoc pvl "" = some v →
      move_script tempDir pvl scriptPath
        = ⟨v ++ [fileName scriptPath], [.mkdirp v, .move scriptPath v], false⟩) := by
  constructor
  · intro hdef
    simp [move_script, hrel, hplugin, hdef]
  · intro v hdef
    simp [move_script, hrel, hplugin, hdef]

/-- Witness for `move_script_orphan_policy`: with an empty version-location
map, an in-workspace script is left in place with a warning. -/
theorem move_script_orphan_policy_witness :
    relativeTo ["tmp"] ["tmp", "plug", "x.py"] = some ["plug", "x.py"] ∧
    move_script ["tmp"] [] ["tmp", "plug", "x.py"] = ⟨["plug", "x.py"], [], true⟩ :=
  ⟨by decide, (move_script_orphan_policy ["tmp"] [] ["tmp", "plug", "x.py"]
      ["plug", "x.py"] (by decide) (by decide)).1 (by decide)⟩

/-- C4 counterexample: with the live schema `liveEx` differing from the
declared snapshot `declEx`, `sync` with no target executes only the
computed in-place diff (a single `dropColumn`), which is not a drop of
every table followed by a re-creation of the declared snapshot — indeed
no table is dropped at all. -/
theorem sync_not_drop_recreate :
    sync none liveEx declEx false
      = .ok ⟨[.dropColumn "t" "b"], [⟨"t", ["a"]⟩], true, none⟩ ∧
    ([SchemaOp.dropColumn "t" "b"] : List SchemaOp)
      ≠ liveEx.map (fun t => SchemaOp.dropTable t.name)
          ++ declEx.map SchemaOp.createTable ∧
    SchemaOp.dropTable "t" ∉ ([SchemaOp.dropColumn "t" "b"] : List SchemaOp) :=
  ⟨by rfl, by decide, by decide⟩

/-- C4 (amended): for every run of `sync` with no target revision — if the
computed diff between live and declared schema is empty, `sync` performs
nothing (no operation, no stamp); if it is non-empty, `sync` executes
exactly the computed in-place diff (no history replay) and stamps the
version table at base; only when applying the diff fails does it fall
back to dropping every reflected table and re-creating exactly the
declared snapshot, again stamping base. -/
theorem sync_no_target_diff_apply (live declared : Schema) (opsFail : Bool) :
    (diffOps live declared = [] →
      sync none live declared opsFail = .ok ⟨[], live, false, none⟩) ∧
    (diffOps live declared ≠ [] → opsFail = false →
      sync none live declared opsFail
        = .ok ⟨diffOps live declared, applyOps live (diffOps live declared),
               true, none⟩) ∧
    (diffOps live declared ≠ [] → opsFail = true →
      sync none live declared opsFail
        = .ok ⟨diffOps live [] ++ declared.map .createTable, declared,
               true, none⟩) := by
  have hfall : applyOps live (diffOps live [] ++ declared.map .createTable)
      = declared := by
    rw [applyOps_append, diffOps_nil_declared]
    rw [show live.map (fun t => SchemaOp.dropTable t.name)
        = (live.map Table.name).map SchemaOp.dropTable from by
      simp [List.map_map, Function.comp]]
    rw [applyOps_dropAll (live.map Table.name) live
      (fun t ht => List.mem_map_of_mem Table.name ht)]
    simpa using applyOps_create [] declared
  refine ⟨fun hd => ?_, fun hd hf => ?_, fun hd hf => ?_⟩
  · simp [sync, hd]
  · simp [sync, hd, hf]
  · simp [sync, hd, hf, hfall]

/-- Witness for `sync_no_target_diff_apply`: on `liveEx`/`declEx` the diff
is non-empty and `sync` executes it in place. -/
theorem sync_no_target_diff_apply_witness :
    diffOps liveEx declEx ≠ [] ∧
    sync none liveEx declEx false
      = .ok ⟨diffOps liveEx declEx, applyOps liveEx (diffOps liveEx declEx),
             true, none⟩ :=
  ⟨by decide, (sync_no_target_diff_apply liveEx declEx false).2.1 (by decide) rfl⟩

/-- C3 (fast path modelled from the spec): for an empty database with no
recorded current revision and target head, `upgrade` with the fast path
enabled yields the same database state as the full historical replay, and
in both cases a subsequent `check` at the head set succeeds with an empty
diff — given that replaying the whole history from base yields the
declared snapshot and the declared table names are distinct. -/
theorem upgrade_fast_equiv (declared : Schema) (history : List Migration)
    (hnodup : (declared.map Table.name).Nodup)
    (hreplay : replaySchema [] history = declared) :
    upgradeCmd true declared history ⟨[], []⟩
      = upgradeCmd false declared history ⟨[], []⟩ ∧
    (check (upgradeCmd true declared history ⟨[], []⟩).versionRows
        (headsOf history)
        (diffOps (upgradeCmd true declared history ⟨[], []⟩).schema
          declared)).outcome = .ok () ∧
    (check (upgradeCmd false declared history ⟨[], []⟩).versionRows
        (headsOf history)
        (diffOps (upgradeCmd false declared history ⟨[], []⟩).schema
          declared)).outcome = .ok () := by
  have hfilter : declared.filter (fun t => t.name ∉ ([] : List String))
      = declared :=
    List.filter_eq_self.mpr fun t ht => by simp
  have hfast : upgradeCmd true declared history ⟨[], []⟩
      = ⟨declared, headsOf history⟩ := by
    simp only [upgradeCmd]
    rw [if_pos (by simp)]
    simp only [List.map_nil]
    rw [hfilter, applyOps_create]
    simp
  have hslow : upgradeCmd false declared history ⟨[], []⟩
      = ⟨declared, headsOf history⟩ := by
    simp only [upgradeCmd]
    rw [if_neg (by simp)]
    rw [show history.filter (fun m => m.rev ∉ ([] : List Rev)) = history from
      List.filter_eq_self.mpr fun m hm => by simp]
    rw [hreplay]
  have hcheck : (check (headsOf history) (headsOf history)
      (diffOps declared declared)).outcome = .ok () := by
    rw [diffOps_self declared hnodup]
    simp [check]
  exact ⟨hfast.trans hslow.symm,
    by rw [hfast]; exact hcheck,
    by rw [hslow]; exact hcheck⟩

/-- Witness for `upgrade_fast_equiv`: one declared table and the
one-revision history `historyEx` creating it. -/
theorem upgrade_fast_equiv_witness :
    ((([⟨"users", ["id"]⟩] : Schema).map Table.name).Nodup
      ∧ replaySchema [] historyEx = [⟨"users", ["id"]⟩]) ∧
    upgradeCmd true [⟨"users", ["id"]⟩] historyEx ⟨[], []⟩
      = upgradeCmd false [⟨"users", ["id"]⟩] historyEx ⟨[], []⟩ :=
  ⟨⟨by decide, by decide⟩,
   (upgrade_fast_equiv [⟨"users", ["id"]⟩] historyEx (by decide) (by decide)).1⟩

end NonebotOrm
